import Mathlib

/-!
Tutorial Synchronizer: verification development

A shallow embedding of the release-management notebook that reconciles a
working directory of tutorial notebooks against a released archive
directory.  The notebook has two code cells:

* a *compute* cell that lists both directories (via `glob` on the pattern
  `*.ipynb`), drops two fixed workspace paths from the working listing,
  takes basenames, and computes the three lists `refreshed`, `added`,
  `removed` by list comprehensions with membership tests;

* an *apply* cell that reads the version marker file, prompts for a line of
  input, raises `RuntimeError("Cancelled")` unless the input equals the
  literal string `"yes"`, then copies `refreshed + added` from the archive
  to the workspace and finally runs a deletion loop calling `os.remove` —
  although no cell ever binds the name `os` (the first cell only does
  `from glob import glob` and `from os.path import basename`, the second
  only `import shutil`), so each attempted deletion resolves the unbound
  name `os` and raises a `NameError`.

Directories are modelled as finite listings (lists of entry names for the
plan computation; association lists from basename to file content for the
apply step).  Python `str.sort`/`sorted` is modelled by insertion sort over
the lexicographic order on `String`, `os.path.basename` by taking the
characters after the last slash, and the notebook's global namespace by the
list of names its import statements and assignments bind.
-/

set_option autoImplicit false

namespace TutorialSync

/-- Source `workspace_path(base)` from the compute cell: `f"/work/{base}"`. -/
def workspace_path (base : String) : String := "/work/" ++ base

/-- Source `archive_path(base)` from the compute cell:
`f"/opt/drake/share/drake/tutorials/{base}"`. -/
def archive_path (base : String) : String :=
  "/opt/drake/share/drake/tutorials/" ++ base

/-- The two workspace paths filtered out of `current_paths` in the compute
cell: `/work/init.ipynb` and `/work/zzz_for_maintainers.ipynb`. -/
def excluded_workspace_paths : List String :=
  ["/work/init.ipynb", "/work/zzz_for_maintainers.ipynb"]

/-- Characters after the last slash of a character list: the accumulator
holds the current path component and is reset at every slash. -/
def basenameChars (acc : List Char) : List Char → List Char
  | [] => acc
  | c :: cs => if c = '/' then basenameChars [] cs else basenameChars (acc ++ [c]) cs

/-- Python `os.path.basename` (POSIX): the part after the last slash. -/
def basename (p : String) : String := String.mk (basenameChars [] p.data)

/-- Lexicographic comparison of character lists by code point: the order
Python uses to compare `str` values. -/
def charsLe : List Char → List Char → Bool
  | [], _ => true
  | _ :: _, [] => false
  | a :: as, b :: bs =>
    if a.toNat < b.toNat then true
    else if b.toNat < a.toNat then false
    else charsLe as bs

/-- Python `<=` on strings: lexicographic by code point. -/
def strLe (a b : String) : Bool := charsLe a.data b.data

/-- One step of insertion sort for strings under the lexicographic order
(the order Python `sorted` uses on `str`). -/
def insertStr (x : String) : List String → List String
  | [] => [x]
  | y :: ys => if strLe x y then x :: y :: ys else y :: insertStr x ys

/-- Python `sorted` on a list of strings, as insertion sort. -/
def sortedStrings : List String → List String
  | [] => []
  | x :: xs => insertStr x (sortedStrings xs)

/-- Whether the string `s` ends with `pat`, by character list. -/
def strEndsWith (s pat : String) : Bool := List.isSuffixOf pat.data s.data

/-- Whether the string `s` starts with `pat`, by character list. -/
def strStartsWith (s pat : String) : Bool := List.isPrefixOf pat.data s.data

/-- Glob matching for the pattern `*.ipynb` over a known directory listing:
`*` matches any run of non-slash characters not starting with a dot, so an
entry name matches the pattern exactly when it ends in `.ipynb`, contains
no slash, and does not start with a dot. -/
def globIpynbMatch (name : String) : Bool :=
  strEndsWith name ".ipynb" && !(name.data.contains '/') && !(strStartsWith name ".")

/-- The reconciliation plan: the three lists computed by the compute cell. -/
structure Plan where
  refreshed : List String
  added : List String
  removed : List String
deriving DecidableEq

/-- The three list comprehensions of the compute cell, over the basename
lists `released` and `current`:
`refreshed = [name for name in current if name in released]`,
`added = [name for name in released if name not in current]`,
`removed = [name for name in current if name not in released]`. -/
def computePlan (released current : List String) : Plan :=
  { refreshed := current.filter (fun name => released.contains name)
  , added := released.filter (fun name => !(current.contains name))
  , removed := current.filter (fun name => !(released.contains name)) }

/-- Source `released_paths = sorted(glob(archive_path("*.ipynb")))`, from the entry
names of the archive directory. -/
def released_paths (archiveEntries : List String) : List String :=
  sortedStrings ((archiveEntries.filter globIpynbMatch).map archive_path)

/-- Source `current_paths = sorted([x for x in glob(workspace_path("*.ipynb"))
if x not in [...]])`, from the entry names of the workspace directory. -/
def current_paths (workEntries : List String) : List String :=
  sortedStrings
    (((workEntries.filter globIpynbMatch).map workspace_path).filter
      (fun x => !(excluded_workspace_paths.contains x)))

/-- Source `released = [basename(x) for x in released_paths]`. -/
def released (archiveEntries : List String) : List String :=
  (released_paths archiveEntries).map basename

/-- Source `current = [basename(x) for x in current_paths]`. -/
def current (workEntries : List String) : List String :=
  (current_paths workEntries).map basename

/-- The whole compute cell, from directory listings (entry names of the
archive directory and of the workspace directory) to the plan. -/
def notebookPlan (archiveEntries workEntries : List String) : Plan :=
  computePlan (released archiveEntries) (current workEntries)

/-- Source `yyyymmdd = open('/opt/drake/share/doc/drake/VERSION.TXT').read()[:8]`:
the first 8 characters of the version marker file's contents. -/
def yyyymmdd (versionFileContents : String) : String :=
  versionFileContents.take 8

/-- A file store (directory) for the apply step: an association list from
basename to file content, most recent binding first. -/
def Store : Type := List (String × String)

/-- Content of the entry named `k`, if present. -/
def Store.get (s : Store) (k : String) : Option String :=
  (List.find? (fun p => p.1 == k) s).map Prod.snd

/-- Write (create or overwrite) the entry named `k` with content `v`, as
`shutil.copyfile` does for its destination. -/
def Store.write (s : Store) (k v : String) : Store :=
  (k, v) :: List.filter (fun p => !(p.1 == k)) s

/-- Delete the entry named `k`, as `os.remove` would. -/
def Store.erase (s : Store) (k : String) : Store :=
  List.filter (fun p => !(p.1 == k)) s

/-- How a run of the apply cell can stop early. -/
inductive SyncError where
  /-- Raised by `raise RuntimeError("Cancelled")` at the confirmation gate. -/
  | cancelled
  /-- Python `NameError`: the given name is not bound in the namespace. -/
  | nameError (name : String)
  /-- An I/O failure naming the missing source entry (e.g. `shutil.copyfile`
  with a nonexistent source). -/
  | missingSource (name : String)
deriving DecidableEq

/-- The names bound in the notebook's global namespace by the time the
apply cell's loops run: the compute cell binds `glob` and `basename` by its
two `from … import …` statements plus its assignments, and the apply cell
binds `shutil` by `import shutil` plus its own assignments.  No statement
binds `os`. -/
def notebookNamespace : List String :=
  ["glob", "basename", "workspace_path", "archive_path",
   "released_paths", "current_paths", "released", "current",
   "refreshed", "added", "removed", "print_list",
   "shutil", "yyyymmdd", "response", "to_copy", "base"]

/-- The copy loop: `for base in to_copy: shutil.copyfile(archive_path(base),
workspace_path(base))`.  Each step overwrites the destination entry with the
source content; a missing source stops the run with its error. -/
def copyLoop (ref : Store) (work : Store) : List String → Store × Option SyncError
  | [] => (work, none)
  | base :: rest =>
    match ref.get base with
    | some content => copyLoop ref (work.write base content) rest
    | none => (work, some (SyncError.missingSource base))

/-- The deletion loop: `for base in removed: os.remove(workspace_path(base))`.
Each iteration first resolves the name `os` in the namespace; if it is
unbound the iteration raises `NameError` and the run stops with the store
untouched by this loop. -/
def deleteLoop (ns : List String) (work : Store) : List String → Store × Option SyncError
  | [] => (work, none)
  | base :: rest =>
    if ns.contains "os" then deleteLoop ns (work.erase base) rest
    else (work, some (SyncError.nameError "os"))

/-- The apply cell after the version banner: read `response`, raise
`RuntimeError("Cancelled")` if `response != "yes"`, otherwise run the copy
loop over `to_copy = refreshed + added` and then the deletion loop over
`removed`.  The result is the final working store together with the error
that stopped the run, if any. -/
def runApply (ns : List String) (response : String) (plan : Plan)
    (ref work : Store) : Store × Option SyncError :=
  if response ≠ "yes" then (work, some SyncError.cancelled)
  else
    let to_copy := plan.refreshed ++ plan.added
    match copyLoop ref work to_copy with
    | (w, some e) => (w, some e)
    | (w, none) => deleteLoop ns w plan.removed

/-- Basenames of the two excluded workspace paths. -/
def excludedBasenames : List String := excluded_workspace_paths.map basename

/-- A concrete archive store fixture: the released content of `A.ipynb` and
`B.ipynb`. -/
def refStore0 : Store := [("A.ipynb", "alpha"), ("B.ipynb", "beta-new")]

/-- A concrete workspace store fixture: a stale `B.ipynb` and a `C.ipynb`
that is absent from the archive. -/
def workStore0 : Store := [("B.ipynb", "beta-old"), ("C.ipynb", "gamma")]

/-- The plan computed for the fixture stores. -/
def plan0 : Plan := computePlan ["A.ipynb", "B.ipynb"] ["B.ipynb", "C.ipynb"]

/-! ## Helper lemmas -/

theorem basenameChars_append (xs : List Char) (acc ys : List Char) :
    basenameChars acc (xs ++ ys) = basenameChars (basenameChars acc xs) ys := by
  induction xs generalizing acc with
  | nil => rfl
  | cons c cs ih =>
    by_cases h : c = '/' <;> simp [basenameChars, h, ih]

theorem basenameChars_of_no_slash (l : List Char) (acc : List Char)
    (h : '/' ∉ l) : basenameChars acc l = acc ++ l := by
  induction l generalizing acc with
  | nil => simp [basenameChars]
  | cons c cs ih =>
    have hc : ¬ c = '/' := fun hc => h (hc ▸ List.mem_cons_self c cs)
    have hcs : '/' ∉ cs := fun hm => h (List.mem_cons_of_mem c hm)
    simp [basenameChars, hc, ih _ hcs]

theorem basename_workspace_path (n : String) (h : '/' ∉ n.data) :
    basename (workspace_path n) = n := by
  show String.mk (basenameChars [] (("/work/" ++ n).data)) = n
  rw [String.data_append, basenameChars_append,
    show basenameChars [] (String.data ("/work/")) = [] from rfl,
    basenameChars_of_no_slash n.data [] h]
  rfl

theorem basename_archive_path (n : String) (h : '/' ∉ n.data) :
    basename (archive_path n) = n := by
  show String.mk (basenameChars [] (("/opt/drake/share/drake/tutorials/" ++ n).data)) = n
  rw [String.data_append, basenameChars_append,
    show basenameChars [] (String.data ("/opt/drake/share/drake/tutorials/")) = [] from rfl,
    basenameChars_of_no_slash n.data [] h]
  rfl

theorem mem_insertStr (a x : String) (l : List String) :
    a ∈ insertStr x l ↔ a = x ∨ a ∈ l := by
  induction l with
  | nil => simp [insertStr]
  | cons y ys ih =>
    by_cases h : strLe x y = true
    · simp [insertStr, h]
    · simp [insertStr, h, ih]
      tauto


theorem mem_sortedStrings (a : String) (l : List String) :
    a ∈ sortedStrings l ↔ a ∈ l := by
  induction l with
  | nil => simp [sortedStrings]
  | cons x xs ih => simp [sortedStrings, mem_insertStr, ih]

theorem no_slash_of_globIpynbMatch (n : String) (h : globIpynbMatch n = true) :
    '/' ∉ n.data := by
  have := (by simpa [globIpynbMatch] using h :
    (strEndsWith n (".ipynb") = true ∧ ('/' ∉ n.data)) ∧ strStartsWith n (".") = false)
  exact this.1.2

theorem mem_current_elim (w : List String) (e : String) (h : e ∈ current w) :
    ∃ n, n ∈ w ∧ globIpynbMatch n = true ∧
      workspace_path n ∉ excluded_workspace_paths ∧ e = basename (workspace_path n) := by
  simp only [current, List.mem_map] at h
  obtain ⟨x, hx, hbe⟩ := h
  rw [current_paths, mem_sortedStrings] at hx
  simp only [List.mem_filter, List.mem_map] at hx
  obtain ⟨⟨n, hn, rfl⟩, hexcl⟩ := hx
  exact ⟨n, hn.1, hn.2, by simpa using hexcl, hbe.symm⟩

theorem excluded_not_mem_current (w : List String) (e : String)
    (he : e ∈ excludedBasenames) : e ∉ current w := by
  intro hc
  obtain ⟨n, _, hglob, hexcl, he'⟩ := mem_current_elim w e hc
  rw [basename_workspace_path n (no_slash_of_globIpynbMatch n hglob)] at he'
  subst he'
  have : e = "init.ipynb" ∨ e = "zzz_for_maintainers.ipynb" := by
    simpa [excludedBasenames, excluded_workspace_paths, basename] using he
  rcases this with rfl | rfl
  · exact hexcl (by decide)
  · exact hexcl (by decide)

theorem mem_released_elim (a : List String) (e : String) (h : e ∈ released a) :
    e ∈ a := by
  simp only [released, List.mem_map] at h
  obtain ⟨x, hx, hbe⟩ := h
  rw [released_paths, mem_sortedStrings] at hx
  simp only [List.mem_map, List.mem_filter] at hx
  obtain ⟨n, hn, rfl⟩ := hx
  rw [← hbe, basename_archive_path n (no_slash_of_globIpynbMatch n hn.2)]
  exact hn.1

theorem copyLoop_ne_cancelled (ref : Store) (l : List String) (work : Store) :
    (copyLoop ref work l).2 ≠ some SyncError.cancelled := by
  induction l generalizing work with
  | nil => simp [copyLoop]
  | cons b rest ih =>
    rw [copyLoop]
    cases h : ref.get b with
    | some c => exact ih _
    | none => simp

theorem deleteLoop_ne_cancelled (ns : List String) (l : List String) (work : Store) :
    (deleteLoop ns work l).2 ≠ some SyncError.cancelled := by
  induction l generalizing work with
  | nil => simp [deleteLoop]
  | cons b rest ih =>
    rw [deleteLoop]
    by_cases h : ns.contains "os" = true
    · rw [if_pos h]; exact ih _
    · rw [if_neg h]; simp

theorem runApply_of_ne_yes (ns : List String) (response : String) (plan : Plan)
    (ref work : Store) (h : response ≠ "yes") :
    runApply ns response plan ref work = (work, some SyncError.cancelled) := by
  simp [runApply, h]

theorem runApply_yes_eq (ns : List String) (plan : Plan) (ref work : Store) :
    runApply ns ("yes") plan ref work =
      (match copyLoop ref work (plan.refreshed ++ plan.added) with
        | (w, some e) => (w, some e)
        | (w, none) => deleteLoop ns w plan.removed) := by
  simp [runApply]

theorem runApply_yes_ne_cancelled (ns : List String) (plan : Plan) (ref work : Store) :
    (runApply ns ("yes") plan ref work).2 ≠ some SyncError.cancelled := by
  rw [runApply_yes_eq]
  rcases hc : copyLoop ref work (plan.refreshed ++ plan.added) with ⟨w, e⟩
  cases e with
  | some er =>
    intro habs
    exact copyLoop_ne_cancelled ref (plan.refreshed ++ plan.added) work
      (by rw [hc]; simpa using habs)
  | none => exact deleteLoop_ne_cancelled ns plan.removed w

/-! ## Claim theorems -/

/-- C1: for every pair of identifier lists, the three lists computed by the
compute cell (refreshed, added, removed) are pairwise disjoint as sets, and
their union equals the union of the working identifiers and the reference
identifiers: every identifier in either input falls into exactly one of the
three categories. -/
theorem plan_partitions_inputs (rel cur : List String) :
    ((computePlan rel cur).refreshed.toFinset ∩ (computePlan rel cur).added.toFinset = ∅) ∧
    ((computePlan rel cur).refreshed.toFinset ∩ (computePlan rel cur).removed.toFinset = ∅) ∧
    ((computePlan rel cur).added.toFinset ∩ (computePlan rel cur).removed.toFinset = ∅) ∧
    ((computePlan rel cur).refreshed.toFinset ∪ (computePlan rel cur).added.toFinset ∪
        (computePlan rel cur).removed.toFinset = cur.toFinset ∪ rel.toFinset) := by
  refine ⟨?_, ?_, ?_, ?_⟩ <;>
  · ext a
    simp [computePlan]
    try tauto

/-- C2: the compute cell is a pure total function of its inputs; as sets,
refreshed is the intersection of working and reference identifiers, added is
reference minus working, removed is working minus reference, and empty
inputs yield empty outputs. -/
theorem plan_set_operations (rel cur : List String) :
    ((computePlan rel cur).refreshed.toFinset = cur.toFinset ∩ rel.toFinset) ∧
    ((computePlan rel cur).added.toFinset = rel.toFinset \ cur.toFinset) ∧
    ((computePlan rel cur).removed.toFinset = cur.toFinset \ rel.toFinset) ∧
    computePlan [] [] = ⟨[], [], []⟩ := by
  refine ⟨?_, ?_, ?_, rfl⟩ <;>
  · ext a
    simp [computePlan]
    try tauto

/-- C3, as stated, is false: the confirmation gate does not compare the
input against the computed version string (the first 8 characters of the
version marker file).  With the fixture plan and stores, typing the version
string `"20221116"` cancels the run, while typing `"yes"` (which differs
from the version string) proceeds past the gate. -/
theorem confirm_version_token_counterexample :
    yyyymmdd ("20221116-marker") = "20221116" ∧
    ("yes" : String) ≠ yyyymmdd ("20221116-marker") ∧
    (runApply notebookNamespace ("yes") plan0 refStore0 workStore0).2 ≠
      some SyncError.cancelled ∧
    runApply notebookNamespace (yyyymmdd ("20221116-marker")) plan0 refStore0 workStore0 =
      (workStore0, some SyncError.cancelled) := by
  refine ⟨rfl, by decide, by decide, rfl⟩

/-- C3 amended: the gate reads a single line of input and proceeds exactly
when that input is the literal string `"yes"`; the computed version string
is only displayed.  Any other input aborts the whole run with the fatal
cancellation error before any file operation occurs (the working store is
returned untouched). -/
theorem confirm_expected_token (response : String) (plan : Plan) (ref work : Store) :
    ((runApply notebookNamespace response plan ref work).2 ≠ some SyncError.cancelled ↔
      response = "yes") ∧
    (response ≠ "yes" →
      runApply notebookNamespace response plan ref work = (work, some SyncError.cancelled)) := by
  constructor
  · constructor
    · intro h
      by_contra hne
      rw [runApply_of_ne_yes notebookNamespace response plan ref work hne] at h
      exact h rfl
    · intro h
      subst h
      exact runApply_yes_ne_cancelled notebookNamespace plan ref work
  · exact runApply_of_ne_yes notebookNamespace response plan ref work

/-- Witness for C3 amended: with the fixture plan and stores, the input
`"20221116"` (the version string, which is not `"yes"`) cancels the run with
the working store untouched. -/
theorem confirm_expected_token_witness :
    runApply notebookNamespace ("20221116") plan0 refStore0 workStore0 =
      (workStore0, some SyncError.cancelled) :=
  (confirm_expected_token ("20221116") plan0 refStore0 workStore0).2 (by decide)

/-- C4: the confirmation input is compared case-sensitively for exact
equality with the literal string `"yes"`: input `"yes"` proceeds past the
gate (the run is never stopped by the cancellation error), and any other
input line yields the fatal cancellation with the working store returned
untouched — no copy and no delete is performed. -/
theorem confirm_literal_yes (response : String) (plan : Plan) (ref work : Store) :
    (response = "yes" →
      (runApply notebookNamespace response plan ref work).2 ≠ some SyncError.cancelled) ∧
    (response ≠ "yes" →
      runApply notebookNamespace response plan ref work = (work, some SyncError.cancelled)) := by
  constructor
  · intro h
    subst h
    exact runApply_yes_ne_cancelled notebookNamespace plan ref work
  · exact runApply_of_ne_yes notebookNamespace response plan ref work

/-- Witness for C4: with the fixture plan and stores, `"yes"` proceeds while
the differently-cased `"Yes"` cancels with zero side effects. -/
theorem confirm_literal_yes_witness :
    (runApply notebookNamespace ("yes") plan0 refStore0 workStore0).2 ≠
      some SyncError.cancelled ∧
    runApply notebookNamespace ("Yes") plan0 refStore0 workStore0 =
      (workStore0, some SyncError.cancelled) :=
  ⟨(confirm_literal_yes ("yes") plan0 refStore0 workStore0).1 rfl,
    (confirm_literal_yes ("Yes") plan0 refStore0 workStore0).2 (by decide)⟩

/-- C5 evaluated at the failing input: for the fixture plan (removed =
`C.ipynb`), a confirmed run applies both copies (`B.ipynb` refreshed to the
archive content, `A.ipynb` newly copied) but then stops with the unbound
name `os` instead of deleting, so `C.ipynb` is still present in the working
store afterwards — the run never reaches the success state the claim
describes. -/
theorem apply_at_failing_input :
    runApply notebookNamespace ("yes") plan0 refStore0 workStore0 =
      ([("A.ipynb", "alpha"), ("B.ipynb", "beta-new"), ("C.ipynb", "gamma")],
        some (SyncError.nameError ("os"))) ∧
    Store.get (runApply notebookNamespace ("yes") plan0 refStore0 workStore0).1 ("C.ipynb") =
      some "gamma" :=
  ⟨rfl, rfl⟩

/-- C6, as stated, is false: an excluded basename can appear in the `added`
category, because the exclusion list is applied only to the workspace
listing, not to the archive listing.  With `init.ipynb` present in the
archive directory (and even present in the workspace, whence it is
excluded), the plan lists `init.ipynb` under added. -/
theorem excluded_in_added_counterexample :
    "init.ipynb" ∈ (notebookPlan ["init.ipynb"] ["B.ipynb", "init.ipynb"]).added := by
  rw [show (notebookPlan ["init.ipynb"] ["B.ipynb", "init.ipynb"]).added = ["init.ipynb"]
    from rfl]
  exact List.mem_singleton_self _

/-- C6 amended: the excluded basenames never appear in refreshed or removed,
regardless of whether they are present in the working store; and they appear
in added only when present in the reference store (so, for a reference store
not containing them, they never appear in any category). -/
theorem excluded_basenames_untouched (archiveEntries workEntries : List String) :
    ∀ e ∈ excludedBasenames,
      e ∉ (notebookPlan archiveEntries workEntries).refreshed ∧
      e ∉ (notebookPlan archiveEntries workEntries).removed ∧
      (e ∉ archiveEntries → e ∉ (notebookPlan archiveEntries workEntries).added) := by
  intro e he
  have hcur := excluded_not_mem_current workEntries e he
  simp only [notebookPlan, computePlan]
  refine ⟨fun h => hcur ?_, fun h => hcur ?_, fun ha h => ha ?_⟩
  · exact List.mem_of_mem_filter h
  · exact List.mem_of_mem_filter h
  · exact mem_released_elim _ _ (List.mem_of_mem_filter h)

/-- Witness for C6 amended: with `A.ipynb` released and a workspace holding
`A.ipynb` and `init.ipynb`, the excluded `init.ipynb` appears in none of the
three categories. -/
theorem excluded_basenames_untouched_witness :
    "init.ipynb" ∉ (notebookPlan ["A.ipynb"] ["A.ipynb", "init.ipynb"]).refreshed ∧
    "init.ipynb" ∉ (notebookPlan ["A.ipynb"] ["A.ipynb", "init.ipynb"]).removed ∧
    "init.ipynb" ∉ (notebookPlan ["A.ipynb"] ["A.ipynb", "init.ipynb"]).added := by
  have h := excluded_basenames_untouched ["A.ipynb"] ["A.ipynb", "init.ipynb"]
    "init.ipynb" (by decide)
  exact ⟨h.1, h.2.1, h.2.2 (by decide)⟩

/-- C7: on reference identifiers `A.ipynb, B.ipynb` and working identifiers
`B.ipynb, C.ipynb` (no exclusions matching), the plan is refreshed =
`B.ipynb`, added = `A.ipynb`, removed = `C.ipynb` — both for the bare
comprehensions and through the full directory pipeline. -/
theorem plan_concrete_example :
    computePlan ["A.ipynb", "B.ipynb"] ["B.ipynb", "C.ipynb"] =
      ⟨["B.ipynb"], ["A.ipynb"], ["C.ipynb"]⟩ ∧
    notebookPlan ["A.ipynb", "B.ipynb"] ["B.ipynb", "C.ipynb"] =
      ⟨["B.ipynb"], ["A.ipynb"], ["C.ipynb"]⟩ :=
  ⟨rfl, rfl⟩

/-- C8: when the reference and working identifier lists are identical, the
plan refreshes the full set and adds and removes nothing, and a confirmed
apply run performs exactly the overwrite-copies of the copy loop and no
deletion (its result is the copy loop's result, whatever that is). -/
theorem plan_identical_inputs (l : List String) (ref work : Store) :
    computePlan l l = ⟨l, [], []⟩ ∧
    runApply notebookNamespace ("yes") (computePlan l l) ref work = copyLoop ref work l := by
  have hplan : computePlan l l = ⟨l, [], []⟩ := by
    have h1 : l.filter (fun name => l.contains name) = l :=
      List.filter_eq_self.mpr fun a ha => by simpa using ha
    have h2 : l.filter (fun name => !(l.contains name)) = [] :=
      List.filter_eq_nil_iff.mpr fun a ha => by simpa using ha
    simp [computePlan, h1, h2]
  refine ⟨hplan, ?_⟩
  rw [hplan, runApply_yes_eq]
  show (match copyLoop ref work (l ++ []) with
    | (w, some e) => (w, some e)
    | (w, none) => deleteLoop notebookNamespace w []) = copyLoop ref work l
  rw [List.append_nil]
  rcases copyLoop ref work l with ⟨w, e⟩
  cases e with
  | some er => rfl
  | none => rfl

/-- C9: the compute cell is deterministic — two runs on unchanged inputs
produce identical plans. -/
theorem plan_deterministic (rel cur rel2 cur2 : List String)
    (h1 : rel = rel2) (h2 : cur = cur2) :
    computePlan rel cur = computePlan rel2 cur2 := by
  rw [h1, h2]

/-- Witness for C9: two runs on the fixture inputs coincide. -/
theorem plan_deterministic_witness :
    computePlan ["A.ipynb", "B.ipynb"] ["B.ipynb", "C.ipynb"] =
      computePlan ["A.ipynb", "B.ipynb"] ["B.ipynb", "C.ipynb"] :=
  plan_deterministic ["A.ipynb", "B.ipynb"] ["B.ipynb", "C.ipynb"]
    ["A.ipynb", "B.ipynb"] ["B.ipynb", "C.ipynb"] rfl rfl

/-- C10: the apply cell's deletion loop calls `os.remove`, but no cell binds
the name `os` (the imports are `from glob import glob`, `from os.path import
basename` and `import shutil`).  Hence for every plan with a non-empty
removed list, a confirmed run whose copy loop completes raises the unbound
name error on `os` after all copies are applied and before any entry is
deleted: the final working store is exactly the copy loop's output. -/
theorem apply_unbound_os (plan : Plan) (ref work : Store)
    (hrem : plan.removed ≠ [])
    (hcopy : (copyLoop ref work (plan.refreshed ++ plan.added)).2 = none) :
    runApply notebookNamespace ("yes") plan ref work =
      ((copyLoop ref work (plan.refreshed ++ plan.added)).1,
        some (SyncError.nameError ("os"))) := by
  rw [runApply_yes_eq]
  rcases hc : copyLoop ref work (plan.refreshed ++ plan.added) with ⟨w, e⟩
  rw [hc] at hcopy
  cases e with
  | some er => exact absurd hcopy (by simp)
  | none =>
    show deleteLoop notebookNamespace w plan.removed = (w, some (SyncError.nameError ("os")))
    cases hr : plan.removed with
    | nil => exact absurd hr hrem
    | cons b rest =>
      rw [deleteLoop, if_neg (by decide : ¬ notebookNamespace.contains "os" = true)]

/-- Witness for C10: on the fixture plan (removed = `C.ipynb`) and stores,
the confirmed run ends with the copies applied and the unbound-name error
on `os`. -/
theorem apply_unbound_os_witness :
    runApply notebookNamespace ("yes") plan0 refStore0 workStore0 =
      ((copyLoop refStore0 workStore0 (plan0.refreshed ++ plan0.added)).1,
        some (SyncError.nameError ("os"))) :=
  apply_unbound_os plan0 refStore0 workStore0 (by decide) rfl

end TutorialSync
